import Mathlib

/-!
Shallow embedding of the collaborative-coding backend:
the in-memory session store (`server/src/store/sessionStore.js`) and the
Socket.IO event handlers (`server/src/socket/handlers.js`).

JavaScript `Map` objects are embedded as association lists in insertion
order: `Map.set` replaces the entry in place when the key is present and
appends otherwise, `Map.delete` removes the entry, `Map.size` is the list
length and iteration follows the list order.  Timestamps (`Date.now()`,
ISO `createdAt` strings) are embedded as epoch milliseconds (`Nat`);
the clock value is passed explicitly to every operation that reads it.
-/

namespace CodeCollab

/-! ### JS `Map` primitives -/

def mapGet {α β : Type} [DecidableEq α] : List (α × β) → α → Option β
  | [], _ => none
  | p :: rest, k => if p.1 = k then some p.2 else mapGet rest k

def mapSet {α β : Type} [DecidableEq α] : List (α × β) → α → β → List (α × β)
  | [], k, v => [(k, v)]
  | p :: rest, k, v => if p.1 = k then (k, v) :: rest else p :: mapSet rest k v

def mapDelete {α β : Type} [DecidableEq α] (m : List (α × β)) (k : α) : List (α × β) :=
  m.filter (fun p => p.1 ≠ k)

def keysNodup {α β : Type} [DecidableEq α] (m : List (α × β)) : Prop :=
  (m.map Prod.fst).Nodup

theorem mapGet_set_self {α β : Type} [DecidableEq α] (m : List (α × β)) (k : α) (v : β) :
    mapGet (mapSet m k v) k = some v := by
  induction m with
  | nil => simp [mapGet, mapSet]
  | cons p rest ih =>
    by_cases h : p.1 = k
    · simp [mapGet, mapSet, h]
    · simp [mapGet, mapSet, h, ih]

theorem mapGet_set_ne {α β : Type} [DecidableEq α] (m : List (α × β)) (k k' : α) (v : β)
    (h : k' ≠ k) : mapGet (mapSet m k v) k' = mapGet m k' := by
  have hkk : ¬ (k = k') := fun hh => h (Eq.symm hh)
  induction m with
  | nil =>
    simp only [mapSet, mapGet]
    rw [if_neg hkk]
  | cons p rest ih =>
    by_cases hp : p.1 = k
    · have hpk' : ¬ (p.1 = k') := by rw [hp]; exact hkk
      rw [show mapSet (p :: rest) k v = (k, v) :: rest by simp [mapSet, hp]]
      simp only [mapGet]
      rw [if_neg hkk, if_neg hpk']
    · rw [show mapSet (p :: rest) k v = p :: mapSet rest k v by simp [mapSet, hp]]
      simp only [mapGet, ih]

theorem mapGet_delete_self {α β : Type} [DecidableEq α] (m : List (α × β)) (k : α) :
    mapGet (mapDelete m k) k = none := by
  induction m with
  | nil => simp [mapGet, mapDelete]
  | cons p rest ih =>
    by_cases h : p.1 = k
    · rw [show mapDelete (p :: rest) k = mapDelete rest k by
        simp [mapDelete, List.filter_cons, h]]
      exact ih
    · rw [show mapDelete (p :: rest) k = p :: mapDelete rest k by
        simp [mapDelete, List.filter_cons, h]]
      simp only [mapGet, if_neg h]
      exact ih

theorem mapGet_delete_ne {α β : Type} [DecidableEq α] (m : List (α × β)) (k k' : α)
    (h : k' ≠ k) : mapGet (mapDelete m k) k' = mapGet m k' := by
  induction m with
  | nil => simp [mapGet, mapDelete]
  | cons p rest ih =>
    by_cases hp : p.1 = k
    · have hpk' : ¬ (p.1 = k') := by rw [hp]; exact fun hh => h (Eq.symm hh)
      rw [show mapDelete (p :: rest) k = mapDelete rest k by
        simp [mapDelete, List.filter_cons, hp]]
      rw [ih, show mapGet (p :: rest) k' = mapGet rest k' by simp [mapGet, hpk']]
    · rw [show mapDelete (p :: rest) k = p :: mapDelete rest k by
        simp [mapDelete, List.filter_cons, hp]]
      by_cases hp' : p.1 = k'
      · simp only [mapGet, if_pos hp']
      · simp only [mapGet, if_neg hp', ih]

theorem mapSet_ne_nil {α β : Type} [DecidableEq α] (m : List (α × β)) (k : α) (v : β) :
    mapSet m k v ≠ [] := by
  cases m with
  | nil => simp [mapSet]
  | cons p rest =>
    by_cases h : p.1 = k <;> simp [mapSet, h]

theorem mem_mapSet {α β : Type} [DecidableEq α] {m : List (α × β)} {k : α} {v : β}
    {q : α × β} (h : q ∈ mapSet m k v) : q = (k, v) ∨ q ∈ m := by
  induction m with
  | nil => simpa [mapSet] using h
  | cons p rest ih =>
    by_cases hp : p.1 = k
    · simp only [mapSet, hp, if_pos] at h
      rcases List.mem_cons.mp h with h1 | h2
      · exact Or.inl h1
      · exact Or.inr (List.mem_cons_of_mem _ h2)
    · simp only [mapSet, hp, if_neg, not_false_iff] at h
      rcases List.mem_cons.mp h with h1 | h2
      · exact Or.inr (h1 ▸ List.mem_cons_self _ _)
      · rcases ih h2 with h3 | h4
        · exact Or.inl h3
        · exact Or.inr (List.mem_cons_of_mem _ h4)

theorem mem_mapDelete {α β : Type} [DecidableEq α] {m : List (α × β)} {k : α}
    {q : α × β} (h : q ∈ mapDelete m k) : q ∈ m :=
  List.mem_of_mem_filter h

theorem mapGet_mem {α β : Type} [DecidableEq α] {m : List (α × β)} {k : α} {v : β}
    (h : mapGet m k = some v) : (k, v) ∈ m := by
  induction m with
  | nil => simp [mapGet] at h
  | cons p rest ih =>
    by_cases hp : p.1 = k
    · simp only [mapGet] at h
      rw [if_pos hp] at h
      have hpkv : (k, v) = p := by
        cases p
        simp only [Prod.mk.injEq]
        exact ⟨Eq.symm hp, Eq.symm (Option.some.inj h)⟩
      exact List.mem_cons.mpr (Or.inl hpkv)
    · simp only [mapGet] at h
      rw [if_neg hp] at h
      exact List.mem_cons_of_mem _ (ih h)

theorem length_mapSet {α β : Type} [DecidableEq α] (m : List (α × β)) (k : α) (v : β) :
    (mapSet m k v).length = if (mapGet m k).isSome then m.length else m.length + 1 := by
  induction m with
  | nil => simp [mapGet, mapSet]
  | cons p rest ih =>
    by_cases hp : p.1 = k
    · simp [mapGet, mapSet, hp]
    · simp only [mapSet, hp, if_neg, not_false_iff, List.length_cons, ih, mapGet]
      by_cases h2 : (mapGet rest k).isSome <;> simp [h2, hp]

theorem keysNodup_mapSet {α β : Type} [DecidableEq α] {m : List (α × β)} (k : α) (v : β)
    (h : keysNodup m) : keysNodup (mapSet m k v) := by
  induction m with
  | nil => simp [keysNodup, mapSet]
  | cons p rest ih =>
    simp only [keysNodup, List.map_cons, List.nodup_cons] at h
    by_cases hp : p.1 = k
    · rw [show mapSet (p :: rest) k v = (k, v) :: rest by simp [mapSet, hp]]
      simp only [keysNodup, List.map_cons, List.nodup_cons]
      exact ⟨by rw [← hp]; exact h.1, h.2⟩
    · have hrest := ih h.2
      have hknotin : p.1 ∉ (mapSet rest k v).map Prod.fst := by
        intro hmem
        rcases List.mem_map.mp hmem with ⟨q, hq, hq1⟩
        rcases mem_mapSet hq with rfl | hq2
        · exact hp (Eq.symm hq1)
        · exact h.1 (List.mem_map.mpr ⟨q, hq2, hq1⟩)
      rw [show mapSet (p :: rest) k v = p :: mapSet rest k v by simp [mapSet, hp]]
      simp only [keysNodup, List.map_cons, List.nodup_cons]
      exact ⟨hknotin, hrest⟩

/-- Under distinct keys, filtering an association list either keeps the entry
found by `mapGet` (when it passes the filter) or erases the key entirely. -/
theorem mapGet_filter_of_nodup {α β : Type} [DecidableEq α] {m : List (α × β)} {k : α} {v : β}
    (q : α × β → Bool) (hnd : keysNodup m) (h : mapGet m k = some v) :
    mapGet (m.filter q) k = if q (k, v) then some v else none := by
  induction m with
  | nil => simp [mapGet] at h
  | cons p rest ih =>
    simp only [keysNodup, List.map_cons, List.nodup_cons] at hnd
    by_cases hp : p.1 = k
    · simp only [mapGet] at h
      rw [if_pos hp] at h
      have hpkv : p = (k, v) := by
        cases p
        simp only [Prod.mk.injEq]
        exact ⟨hp, Option.some.inj h⟩
      have hnone : mapGet (rest.filter q) k = none := by
        rcases hx : mapGet (rest.filter q) k with _ | w
        · rfl
        · exfalso
          apply hnd.1
          rw [hp]
          exact List.mem_map.mpr ⟨(k, w), List.mem_of_mem_filter (mapGet_mem hx), rfl⟩
      by_cases hq : q (k, v) = true
      · rw [hpkv, List.filter_cons, if_pos hq]
        simp [mapGet, hq]
      · rw [hpkv, List.filter_cons, if_neg hq]
        simp only [Bool.not_eq_true] at hq
        simp [hq, hnone]
    · simp only [mapGet] at h
      rw [if_neg hp] at h
      by_cases hq : q p = true
      · rw [List.filter_cons, if_pos hq,
          show mapGet (p :: rest.filter q) k = mapGet (rest.filter q) k by
            simp [mapGet, hp]]
        exact ih hnd.2 h
      · rw [List.filter_cons, if_neg hq]
        exact ih hnd.2 h

/-! ### Session store (`sessionStore.js`) -/

/-- The placeholder buffer every fresh session starts with. -/
def defaultCode : String := "// Start coding here...\n"

structure Session where
  id : String
  code : String
  language : String
  createdAtMs : Nat
  lastActiveAt : Option Nat
deriving Repr, DecidableEq

abbrev Registry := List (String × Session)

/-- `createSession(sessionId)`: build the default record and `sessions.set` it. -/
def createSession (now : Nat) (sessionId : String) (sessions : Registry) :
    Session × Registry :=
  let session : Session :=
    { id := sessionId
      code := defaultCode
      language := "javascript"
      createdAtMs := now
      lastActiveAt := some now }
  (session, mapSet sessions sessionId session)

/-- `getSession(sessionId)`: `sessions.get(sessionId) || null`. -/
def getSession (sessions : Registry) (sessionId : String) : Option Session :=
  mapGet sessions sessionId

/-- `updateCode(sessionId, code)`: mutate `code`, bump `lastActiveAt`, report success. -/
def updateCode (now : Nat) (sessions : Registry) (sessionId code : String) :
    Bool × Registry :=
  match mapGet sessions sessionId with
  | none => (false, sessions)
  | some s => (true, mapSet sessions sessionId { s with code := code, lastActiveAt := some now })

/-- `updateLanguage(sessionId, language)`: mutate `language`, bump `lastActiveAt`. -/
def updateLanguage (now : Nat) (sessions : Registry) (sessionId language : String) :
    Bool × Registry :=
  match mapGet sessions sessionId with
  | none => (false, sessions)
  | some s => (true, mapSet sessions sessionId { s with language := language, lastActiveAt := some now })

/-- `sessionExists(sessionId)`: `sessions.has(sessionId)`. -/
def sessionExists (sessions : Registry) (sessionId : String) : Bool :=
  (mapGet sessions sessionId).isSome

/-- `getSessionCount()`: `sessions.size`. -/
def getSessionCount (sessions : Registry) : Nat :=
  sessions.length

/-- `EXPIRATION_MS = 24 * 60 * 60 * 1000`. -/
def expirationMs : Nat := 24 * 60 * 60 * 1000

/-- `session.lastActiveAt || new Date(session.createdAt).getTime()` —
JS `||` falls back both when `lastActiveAt` is absent and when it is `0`
(zero is falsy). -/
def lastActiveOf (s : Session) : Nat :=
  match s.lastActiveAt with
  | some t => if t = 0 then s.createdAtMs else t
  | none => s.createdAtMs

/-- `now - lastActive > EXPIRATION_MS` (signed arithmetic, as in JS). -/
def isExpiredAt (now : Nat) (s : Session) : Bool :=
  (now : Int) - (lastActiveOf s : Int) > (expirationMs : Int)

/-- `cleanupSessions()`: delete every expired record, return the number deleted. -/
def cleanupSessions (now : Nat) (sessions : Registry) : Nat × Registry :=
  ((sessions.filter (fun p => isExpiredAt now p.2)).length,
   sessions.filter (fun p => !isExpiredAt now p.2))

/-! ### Real-time gateway (`handlers.js`)

A handler takes the server state and the sender's socket id plus payload
fields (`Option` models a possibly-absent/undefined field) and returns the
new state together with the list of deliveries it emits, each delivery a
`(recipient socket id, event)` pair in emission order. -/

structure PresenceEntry where
  isActive : Bool
  joinedAt : Nat
deriving Repr, DecidableEq

/-- `sessionPresence`: sessionId -> Map<socketId, { isActive, joinedAt }>. -/
abbrev PresenceMap := List (String × PresenceEntry)

abbrev PresenceState := List (String × PresenceMap)

structure UserInfo where
  id : String
  isActive : Bool
  joinedAt : Nat
deriving Repr, DecidableEq

/-- The object `getSessionPresence` returns; in the no-users branch the JS
object carries no `activeCount` field at all, embedded here as `none`. -/
structure PresenceSnapshot where
  userCount : Nat
  activeCount : Option Nat
  users : List UserInfo
deriving Repr, DecidableEq

inductive ServerEvent where
  | error (message : String)
  | sessionState (code language : String)
  | codeUpdate (code : String)
  | languageUpdate (language : String)
  | outputUpdate (output : String) (errorText : Option String) (isRunning : Bool)
  | presenceUpdate (snapshot : PresenceSnapshot)
deriving Repr, DecidableEq

/-- Socket.IO rooms: room name -> member socket ids in join order. -/
abbrev Rooms := List (String × List String)

abbrev Emit := List (String × ServerEvent)

def roomMembers (rooms : Rooms) (room : String) : List String :=
  (mapGet rooms room).getD []

/-- `socket.join(room)`: a no-op when the socket is already a member. -/
def roomJoin (rooms : Rooms) (room socketId : String) : Rooms :=
  let members := roomMembers rooms room
  if socketId ∈ members then rooms else mapSet rooms room (members ++ [socketId])

/-- `socket.leave(room)`. -/
def roomLeave (rooms : Rooms) (room socketId : String) : Rooms :=
  match mapGet rooms room with
  | none => rooms
  | some members => mapSet rooms room (members.filter (fun m => m ≠ socketId))

/-- The transport removes a disconnected socket from every room. -/
def leaveAllRooms (rooms : Rooms) (socketId : String) : Rooms :=
  rooms.map (fun p => (p.1, p.2.filter (fun m => m ≠ socketId)))

/-- `socket.to(room).emit(ev)`: deliver to every member except the sender. -/
def socketToRoom (rooms : Rooms) (room sender : String) (ev : ServerEvent) : Emit :=
  ((roomMembers rooms room).filter (fun m => m ≠ sender)).map (fun m => (m, ev))

/-- `io.to(room).emit(ev)`: deliver to every member of the room. -/
def ioToRoom (rooms : Rooms) (room : String) (ev : ServerEvent) : Emit :=
  (roomMembers rooms room).map (fun m => (m, ev))

/-- `getSessionPresence(sessionId)`. -/
def getSessionPresence (presence : PresenceState) (sessionId : String) : PresenceSnapshot :=
  match mapGet presence sessionId with
  | none => { userCount := 0, activeCount := none, users := [] }
  | some users =>
    let userList : List UserInfo := users.map (fun p =>
      { id := p.1.take 8, isActive := p.2.isActive, joinedAt := p.2.joinedAt })
    { userCount := users.length
      activeCount := some (userList.filter (fun u => u.isActive)).length
      users := userList }

/-- `broadcastPresence(io, sessionId)`. -/
def broadcastPresence (rooms : Rooms) (presence : PresenceState) (sessionId : String) : Emit :=
  ioToRoom rooms sessionId (ServerEvent.presenceUpdate (getSessionPresence presence sessionId))

/-- JS truthiness of a possibly-absent string field (`!x` is true for
`undefined` and for the empty string). -/
def strTruthy : Option String → Bool
  | none => false
  | some s => !(s == "")

/-- The whole server: the session registry, the presence maps, the
Socket.IO rooms, and every connection's `currentSessionId` closure
variable (a socket id absent from `currentSession` has it `null`). -/
structure ServerState where
  sessions : Registry
  presence : PresenceState
  rooms : Rooms
  currentSession : List (String × String)
deriving Repr, DecidableEq

def initialState : ServerState :=
  { sessions := [], presence := [], rooms := [], currentSession := [] }

/-- The `join-session` handler. -/
def joinSession (now : Nat) (st : ServerState) (socketId : String)
    (sessionId? : Option String) : ServerState × Emit :=
  if !strTruthy sessionId? then
    (st, [(socketId, ServerEvent.error "Session ID is required")])
  else
    let sessionId := sessionId?.getD ""
    match getSession st.sessions sessionId with
    | none => (st, [(socketId, ServerEvent.error "Session not found")])
    | some session =>
      -- leave previous session if any
      let stage1 : ServerState × Emit :=
        match mapGet st.currentSession socketId with
        | none => (st, [])
        | some prev =>
          let rooms1 := roomLeave st.rooms prev socketId
          match mapGet st.presence prev with
          | none => ({ st with rooms := rooms1 }, [])
          | some prevUsers =>
            let prevUsers1 := mapDelete prevUsers socketId
            if prevUsers1.isEmpty then
              ({ st with rooms := rooms1, presence := mapDelete st.presence prev }, [])
            else
              let presence1 := mapSet st.presence prev prevUsers1
              ({ st with rooms := rooms1, presence := presence1 },
               broadcastPresence rooms1 presence1 prev)
      let st1 := stage1.1
      -- join the new session room and register presence
      let rooms2 := roomJoin st1.rooms sessionId socketId
      let curUsers := (mapGet st1.presence sessionId).getD []
      let presence2 := mapSet st1.presence sessionId
        (mapSet curUsers socketId { isActive := true, joinedAt := now })
      ({ st1 with
          rooms := rooms2
          presence := presence2
          currentSession := mapSet st1.currentSession socketId sessionId },
       stage1.2
         ++ [(socketId, ServerEvent.sessionState session.code session.language)]
         ++ broadcastPresence rooms2 presence2 sessionId)

/-- The `code-change` handler. -/
def codeChange (now : Nat) (st : ServerState) (socketId : String)
    (sessionId? code? : Option String) : ServerState × Emit :=
  if !strTruthy sessionId? || code?.isNone then
    (st, [(socketId, ServerEvent.error "Invalid code change data")])
  else
    let sessionId := sessionId?.getD ""
    let code := code?.getD ""
    let upd := updateCode now st.sessions sessionId code
    if !upd.1 then
      (st, [(socketId, ServerEvent.error "Failed to update code")])
    else
      ({ st with sessions := upd.2 },
       socketToRoom st.rooms sessionId socketId (ServerEvent.codeUpdate code))

def validLanguages : List String := ["javascript", "python", "other"]

/-- The `language-change` handler. -/
def languageChange (now : Nat) (st : ServerState) (socketId : String)
    (sessionId? language? : Option String) : ServerState × Emit :=
  if !strTruthy sessionId? || !strTruthy language? then
    (st, [(socketId, ServerEvent.error "Invalid language change data")])
  else
    let sessionId := sessionId?.getD ""
    let language := language?.getD ""
    if !(validLanguages.contains language) then
      (st, [(socketId, ServerEvent.error "Invalid language selection")])
    else
      let upd := updateLanguage now st.sessions sessionId language
      if !upd.1 then
        (st, [(socketId, ServerEvent.error "Failed to update language")])
      else
        ({ st with sessions := upd.2 },
         socketToRoom st.rooms sessionId socketId (ServerEvent.languageUpdate language))

/-- The `activity-change` handler (silently ignores bad input). -/
def activityChange (st : ServerState) (socketId : String)
    (sessionId? : Option String) (isActive? : Option Bool) : ServerState × Emit :=
  if !strTruthy sessionId? || isActive?.isNone then (st, [])
  else
    let sessionId := sessionId?.getD ""
    let isActive := isActive?.getD false
    match mapGet st.presence sessionId with
    | none => (st, [])
    | some users =>
      match mapGet users socketId with
      | none => (st, [])
      | some entry =>
        let presence1 := mapSet st.presence sessionId
          (mapSet users socketId { entry with isActive := isActive })
        ({ st with presence := presence1 },
         broadcastPresence st.rooms presence1 sessionId)

/-- The `disconnect` handler; the transport has already removed the socket
from its rooms when it runs, and the connection's closure state dies. -/
def disconnectSocket (st : ServerState) (socketId : String) : ServerState × Emit :=
  let rooms1 := leaveAllRooms st.rooms socketId
  let cur1 := mapDelete st.currentSession socketId
  match mapGet st.currentSession socketId with
  | none => ({ st with rooms := rooms1, currentSession := cur1 }, [])
  | some cur =>
    match mapGet st.presence cur with
    | none => ({ st with rooms := rooms1, currentSession := cur1 }, [])
    | some users =>
      let users1 := mapDelete users socketId
      if users1.isEmpty then
        ({ st with rooms := rooms1, currentSession := cur1, presence := mapDelete st.presence cur }, [])
      else
        let presence1 := mapSet st.presence cur users1
        ({ st with rooms := rooms1, currentSession := cur1, presence := presence1 },
         broadcastPresence rooms1 presence1 cur)

/-- Server states reachable from startup through the REST layer
(`createSession`), the socket handlers, and the hourly sweep. -/
inductive Reachable : ServerState → Prop where
  | init : Reachable initialState
  | create (now : Nat) (sid : String) {st : ServerState} : Reachable st →
      Reachable { st with sessions := (createSession now sid st.sessions).2 }
  | join (now : Nat) (soc : String) (sid? : Option String) {st : ServerState} :
      Reachable st → Reachable (joinSession now st soc sid?).1
  | code (now : Nat) (soc : String) (sid? c? : Option String) {st : ServerState} :
      Reachable st → Reachable (codeChange now st soc sid? c?).1
  | lang (now : Nat) (soc : String) (sid? l? : Option String) {st : ServerState} :
      Reachable st → Reachable (languageChange now st soc sid? l?).1
  | activity (soc : String) (sid? : Option String) (a? : Option Bool) {st : ServerState} :
      Reachable st → Reachable (activityChange st soc sid? a?).1
  | disconnect (soc : String) {st : ServerState} : Reachable st →
      Reachable (disconnectSocket st soc).1
  | sweep (now : Nat) {st : ServerState} : Reachable st →
      Reachable { st with sessions := (cleanupSessions now st.sessions).2 }

/-! ### Claim theorems -/

/-- C7: updateCode and updateLanguage on an identifier not present in the
Registry return false without creating a record; the Registry's contents
and count are unchanged. -/
theorem update_failure_atomicity (now : Nat) (sessions : Registry) (sid v : String)
    (h : sessionExists sessions sid = false) :
    updateCode now sessions sid v = (false, sessions)
    ∧ updateLanguage now sessions sid v = (false, sessions)
    ∧ sessionExists (updateCode now sessions sid v).2 sid = false
    ∧ getSessionCount (updateCode now sessions sid v).2 = getSessionCount sessions
    ∧ getSessionCount (updateLanguage now sessions sid v).2 = getSessionCount sessions := by
  have hnone : mapGet sessions sid = none := by
    cases hx : mapGet sessions sid with
    | none => rfl
    | some s => rw [sessionExists, hx] at h; simp at h
  refine ⟨?_, ?_, ?_, ?_, ?_⟩ <;>
    simp [updateCode, updateLanguage, hnone, sessionExists, getSessionCount]

/-- Witness for C7 at a concrete input. -/
theorem update_failure_atomicity_witness :
    sessionExists ([] : Registry) "ghost" = false
    ∧ updateCode 7 [] "ghost" "x" = (false, [])
    ∧ updateLanguage 7 [] "ghost" "x" = (false, []) :=
  ⟨rfl, (update_failure_atomicity 7 [] "ghost" "x" rfl).1,
    (update_failure_atomicity 7 [] "ghost" "x" rfl).2.1⟩

/-- C9: create(id) always succeeds, installs the fixed placeholder code and
language "javascript", leaves every other identifier untouched, and on a
colliding identifier silently replaces the prior record (count unchanged);
on a fresh identifier the count grows by one. -/
theorem create_defaults_and_overwrite (now : Nat) (sid : String) (sessions : Registry) :
    (createSession now sid sessions).1.code = "// Start coding here...\n"
    ∧ (createSession now sid sessions).1.language = "javascript"
    ∧ mapGet (createSession now sid sessions).2 sid = some (createSession now sid sessions).1
    ∧ (∀ k, k ≠ sid → mapGet (createSession now sid sessions).2 k = mapGet sessions k)
    ∧ (∀ old, mapGet sessions sid = some old →
        mapGet (createSession now sid sessions).2 sid
          = some { id := sid, code := defaultCode, language := "javascript",
                   createdAtMs := now, lastActiveAt := some now }
        ∧ getSessionCount (createSession now sid sessions).2 = getSessionCount sessions)
    ∧ (mapGet sessions sid = none →
        getSessionCount (createSession now sid sessions).2 = getSessionCount sessions + 1) := by
  refine ⟨rfl, rfl, mapGet_set_self _ _ _, ?_, ?_, ?_⟩
  · intro k hk
    exact mapGet_set_ne _ _ _ _ hk
  · intro old hold
    refine ⟨mapGet_set_self _ _ _, ?_⟩
    simp [getSessionCount, createSession, length_mapSet, hold]
  · intro hnone
    simp [getSessionCount, createSession, length_mapSet, hnone]

/-- Witness for C9 at a concrete input (a collision overwrites). -/
theorem create_defaults_and_overwrite_witness :
    mapGet (createSession 10 "a" []).2 "a" = some (createSession 10 "a" []).1
    ∧ getSessionCount (createSession 20 "a" (createSession 10 "a" []).2).2
        = getSessionCount (createSession 10 "a" []).2 :=
  ⟨(create_defaults_and_overwrite 10 "a" []).2.2.1,
    ((create_defaults_and_overwrite 20 "a" (createSession 10 "a" []).2).2.2.2.2.1
      { id := "a", code := defaultCode, language := "javascript",
        createdAtMs := 10, lastActiveAt := some 10 } rfl).2⟩

/-- C3 (amended): joining with a non-empty identifier for which exists() is
false yields exactly the single error "Session not found" and leaves the
whole server state (rooms, presence, registry, current sessions) unchanged. -/
theorem join_error_contract (now : Nat) (st : ServerState) (conn sid : String)
    (hsid : sid ≠ "") (hnf : sessionExists st.sessions sid = false) :
    joinSession now st conn (some sid)
      = (st, [(conn, ServerEvent.error "Session not found")]) := by
  have ht : strTruthy (some sid) = true := by simp [strTruthy, hsid]
  have hnone : getSession st.sessions sid = none := by
    cases hx : mapGet st.sessions sid with
    | none => rw [getSession]; exact hx
    | some s => rw [sessionExists, hx] at hnf; simp at hnf
  unfold joinSession
  rw [ht]
  simp [hnone]

/-- Witness for the amended C3 at a concrete input. -/
theorem join_error_contract_witness :
    ("ghost" : String) ≠ ""
    ∧ sessionExists initialState.sessions "ghost" = false
    ∧ joinSession 3 initialState "conn1" (some "ghost")
        = (initialState, [("conn1", ServerEvent.error "Session not found")]) :=
  ⟨by decide, rfl, join_error_contract 3 initialState "conn1" "ghost" (by decide) rfl⟩

/-- C3 counterexample: the empty string is an identifier for which exists()
is false, yet join-session answers "Session ID is required" — zero
"Session not found" errors are emitted, not exactly one. -/
theorem join_error_empty_id_counterexample :
    sessionExists initialState.sessions "" = false
    ∧ (joinSession 0 initialState "conn1" (some "")).2
        = [("conn1", ServerEvent.error "Session ID is required")]
    ∧ ((joinSession 0 initialState "conn1" (some "")).2.filter
        (fun p => p.2 == ServerEvent.error "Session not found")).length = 0 :=
  ⟨rfl, rfl, rfl⟩

/-- C8 (amended): a language-change whose sessionId and language are present
and non-empty but whose language is outside {javascript, python, other}
yields exactly the single error "Invalid language selection" and leaves the
whole server state unchanged (no Registry mutation, no broadcast). -/
theorem language_validation (now : Nat) (st : ServerState) (conn sid lang : String)
    (hsid : sid ≠ "") (hlang : lang ≠ "") (hbad : validLanguages.contains lang = false) :
    languageChange now st conn (some sid) (some lang)
      = (st, [(conn, ServerEvent.error "Invalid language selection")]) := by
  have ht1 : strTruthy (some sid) = true := by simp [strTruthy, hsid]
  have ht2 : strTruthy (some lang) = true := by simp [strTruthy, hlang]
  have hmem : lang ∉ validLanguages := by simpa using hbad
  unfold languageChange
  rw [ht1, ht2]
  simp [hmem]

/-- Witness for the amended C8 at a concrete input. -/
theorem language_validation_witness :
    ("sess1" : String) ≠ "" ∧ ("ruby" : String) ≠ ""
    ∧ validLanguages.contains "ruby" = false
    ∧ languageChange 60 { initialState with sessions := (createSession 50 "sess1" []).2 }
        "connA" (some "sess1") (some "ruby")
      = ({ initialState with sessions := (createSession 50 "sess1" []).2 },
         [("connA", ServerEvent.error "Invalid language selection")]) :=
  ⟨by decide, by decide, rfl,
    language_validation 60 _ "connA" "sess1" "ruby" (by decide) (by decide) rfl⟩

theorem mapGet_none_not_mem {α β : Type} [DecidableEq α] {m : List (α × β)} {k : α} {v : β}
    (h : mapGet m k = none) : (k, v) ∉ m := by
  induction m with
  | nil => simp
  | cons p rest ih =>
    by_cases hp : p.1 = k
    · simp only [mapGet] at h
      rw [if_pos hp] at h
      exact absurd h (by simp)
    · simp only [mapGet] at h
      rw [if_neg hp] at h
      intro hmem
      rcases List.mem_cons.mp hmem with heq | hmem2
      · exact hp (by rw [← heq])
      · exact ih h hmem2

theorem isExpiredAt_iff (now : Nat) (s : Session) :
    isExpiredAt now s = true
      ↔ (now : Int) - (lastActiveOf s : Int) > (expirationMs : Int) := by
  simp [isExpiredAt]

/-- C6: the sweep removes exactly the records whose last activity
(`lastActiveAt`, falling back to `createdAt`) is older than now minus 24
hours, retains the rest verbatim, touches no absent identifier, returns the
number removed, and a successful updateCode resets the 24-hour clock by
stamping `lastActiveAt := now` — so any sweep within the next 24 hours
retains the record. -/
theorem expiry_sweep (now : Nat) (sessions : Registry) (hnd : keysNodup sessions) :
    (∀ id s, mapGet sessions id = some s →
        (((now : Int) - (lastActiveOf s : Int) > (expirationMs : Int)) →
            mapGet (cleanupSessions now sessions).2 id = none)
        ∧ (((now : Int) - (lastActiveOf s : Int) ≤ (expirationMs : Int)) →
            mapGet (cleanupSessions now sessions).2 id = some s))
    ∧ (∀ id, mapGet sessions id = none → mapGet (cleanupSessions now sessions).2 id = none)
    ∧ (cleanupSessions now sessions).1 + (cleanupSessions now sessions).2.length
        = sessions.length
    ∧ (∀ (sid c : String) (s : Session), mapGet sessions sid = some s →
        (updateCode now sessions sid c).1 = true
        ∧ mapGet (updateCode now sessions sid c).2 sid
            = some { s with code := c, lastActiveAt := some now }
        ∧ (∀ now2 : Nat, (now2 : Int) - (now : Int) ≤ (expirationMs : Int) →
            mapGet (cleanupSessions now2 (updateCode now sessions sid c).2).2 sid
              = some { s with code := c, lastActiveAt := some now })) := by
  refine ⟨?_, ?_, ?_, ?_⟩
  · intro id s hget
    have hf := mapGet_filter_of_nodup (fun p => !isExpiredAt now p.2) hnd hget
    constructor
    · intro hexp
      have : isExpiredAt now s = true := (isExpiredAt_iff now s).mpr hexp
      rw [cleanupSessions]
      simpa [this] using hf
    · intro hact
      have : isExpiredAt now s = false := by
        rcases hb : isExpiredAt now s with _ | _
        · rfl
        · exact absurd ((isExpiredAt_iff now s).mp hb) (by omega)
      rw [cleanupSessions]
      simpa [this] using hf
  · intro id hnone
    rcases hx : mapGet (cleanupSessions now sessions).2 id with _ | w
    · rfl
    · exfalso
      have hmem : (id, w) ∈ sessions :=
        List.mem_of_mem_filter (mapGet_mem hx)
      exact mapGet_none_not_mem hnone hmem
  · rw [cleanupSessions]
    exact (@List.length_eq_length_filter_add _ sessions (fun p => isExpiredAt now p.2)).symm
  · intro sid c s hget
    have hupd : updateCode now sessions sid c
        = (true, mapSet sessions sid { s with code := c, lastActiveAt := some now }) := by
      rw [updateCode, hget]
    refine ⟨by rw [hupd], ?_, ?_⟩
    · rw [hupd]
      exact mapGet_set_self _ _ _
    · intro now2 hnow2
      have hnd2 : keysNodup (updateCode now sessions sid c).2 := by
        rw [hupd]
        exact keysNodup_mapSet _ _ hnd
      have hget2 : mapGet (updateCode now sessions sid c).2 sid
          = some { s with code := c, lastActiveAt := some now } := by
        rw [hupd]
        exact mapGet_set_self _ _ _
      have hf := mapGet_filter_of_nodup (fun p => !isExpiredAt now2 p.2) hnd2 hget2
      have hla : lastActiveOf { s with code := c, lastActiveAt := some now }
          = if now = 0 then s.createdAtMs else now := by
        simp [lastActiveOf]
      have hnotexp : isExpiredAt now2 { s with code := c, lastActiveAt := some now } = false := by
        rcases hb : isExpiredAt now2 { s with code := c, lastActiveAt := some now } with _ | _
        · rfl
        · exfalso
          have hgt := (isExpiredAt_iff now2 _).mp hb
          rw [hla] at hgt
          by_cases h0 : now = 0
          · rw [if_pos h0] at hgt
            rw [h0] at hnow2
            omega
          · rw [if_neg h0] at hgt
            omega
      rw [cleanupSessions]
      simpa [hnotexp] using hf

/-- Witness for C6 at a concrete input: a stale session is swept, a fresh
one is kept, and updating code restarts the clock. -/
theorem expiry_sweep_witness :
    keysNodup ((createSession 1000 "old" []).2 : Registry)
    ∧ mapGet (cleanupSessions (1000 + 24 * 60 * 60 * 1000 + 1)
        (createSession 1000 "old" []).2).2 "old" = none
    ∧ mapGet (cleanupSessions (1000 + 24 * 60 * 60 * 1000)
        (createSession 1000 "old" []).2).2 "old" = some (createSession 1000 "old" []).1
    ∧ (updateCode 500 (createSession 100 "a" []).2 "a" "new").1 = true := by
  have h1 := (expiry_sweep (1000 + 24 * 60 * 60 * 1000 + 1) (createSession 1000 "old" []).2
      (by simp [createSession, keysNodup, mapSet])).1 "old" (createSession 1000 "old" []).1
      (mapGet_set_self _ _ _)
  have h2 := (expiry_sweep (1000 + 24 * 60 * 60 * 1000) (createSession 1000 "old" []).2
      (by simp [createSession, keysNodup, mapSet])).1 "old" (createSession 1000 "old" []).1
      (mapGet_set_self _ _ _)
  have h3 := ((expiry_sweep 500 (createSession 100 "a" []).2
      (by simp [createSession, keysNodup, mapSet])).2.2.2 "a" "new" (createSession 100 "a" []).1
      (mapGet_set_self _ _ _)).1
  refine ⟨by simp [createSession, keysNodup, mapSet], ?_, ?_, h3⟩
  · exact h1.1 (by norm_num [createSession, lastActiveOf, expirationMs])
  · exact h2.2 (by norm_num [createSession, lastActiveOf, expirationMs])

theorem strTruthy_some_of_ne {s : String} (h : s ≠ "") : strTruthy (some s) = true := by
  simp [strTruthy, h]

/-- The successful path of the code-change handler. -/
theorem codeChange_success (now : Nat) (st : ServerState) (soc sid c : String) (s : Session)
    (hsid : sid ≠ "") (hget : mapGet st.sessions sid = some s) :
    codeChange now st soc (some sid) (some c)
      = ({ st with sessions := mapSet st.sessions sid { s with code := c, lastActiveAt := some now } },
         socketToRoom st.rooms sid soc (ServerEvent.codeUpdate c)) := by
  have ht := strTruthy_some_of_ne hsid
  have hupd : updateCode now st.sessions sid c
      = (true, mapSet st.sessions sid { s with code := c, lastActiveAt := some now }) := by
    rw [updateCode, hget]
  unfold codeChange
  rw [ht]
  simp [hupd]

theorem deliveries_to_absent {l : List String} (ev : ServerEvent) {B : String} (hB : B ∉ l) :
    (l.map (fun m => (m, ev))).filter (fun p => p.1 == B) = [] := by
  induction l with
  | nil => rfl
  | cons x xs ih =>
    have hxB : ((x, ev).1 == B) = false := by
      simp only [beq_eq_false_iff_ne, ne_eq]
      intro hxb
      exact hB (by rw [hxb]; exact List.mem_cons_self _ _)
    rw [List.map_cons, List.filter_cons_of_neg (by simp [hxB])]
    exact ih (fun hmem => hB (List.mem_cons_of_mem _ hmem))

/-- In a sender-excluded broadcast over a duplicate-free member list, a
member other than the sender receives the event exactly once. -/
theorem deliveries_to_member {l : List String} (ev : ServerEvent) {A B : String}
    (hnd : l.Nodup) (hB : B ∈ l) (hBA : B ≠ A) :
    ((l.filter (fun m => m ≠ A)).map (fun m => (m, ev))).filter (fun p => p.1 == B)
      = [(B, ev)] := by
  induction l with
  | nil => simp at hB
  | cons x xs ih =>
    rcases List.nodup_cons.mp hnd with ⟨hx, hxs⟩
    rcases List.mem_cons.mp hB with rfl | hBmem
    · rw [List.filter_cons_of_pos (by simpa using hBA), List.map_cons,
        List.filter_cons_of_pos (by simp)]
      have htail : ((xs.filter (fun m => m ≠ A)).map (fun m => (m, ev))).filter
          (fun p => p.1 == B) = [] :=
        deliveries_to_absent ev (fun hmem => hx (List.mem_of_mem_filter hmem))
      rw [htail]
    · by_cases hxA : x = A
      · rw [List.filter_cons_of_neg (by simp [hxA])]
        exact ih hxs hBmem
      · rw [List.filter_cons_of_pos (by simp [hxA]), List.map_cons]
        have hxB : ((x, ev).1 == B) = false := by
          simp only [beq_eq_false_iff_ne, ne_eq]
          intro hxb
          exact hx (hxb ▸ hBmem)
        rw [List.filter_cons_of_neg (by simp [hxB])]
        exact ih hxs hBmem

theorem filter_single_ne {soc B : String} (ev : ServerEvent) (h : soc ≠ B) :
    ([(soc, ev)].filter (fun p => p.1 == B)) = [] := by
  simp [h]

/-- C1: echo exclusion — when A emits code-change with a valid session id
and a defined code value, a distinct connection B in that session's room
receives exactly one code-update carrying the new code, and A receives
nothing at all. -/
theorem echo_exclusion (now : Nat) (st : ServerState) (A B sid c : String) (s : Session)
    (_hA : A ∈ roomMembers st.rooms sid) (hB : B ∈ roomMembers st.rooms sid)
    (hBA : B ≠ A) (hnd : (roomMembers st.rooms sid).Nodup)
    (hsid : sid ≠ "") (hget : mapGet st.sessions sid = some s) :
    ((codeChange now st A (some sid) (some c)).2.filter (fun p => p.1 == B))
        = [(B, ServerEvent.codeUpdate c)]
    ∧ ((codeChange now st A (some sid) (some c)).2.filter (fun p => p.1 == A)) = [] := by
  rw [codeChange_success now st A sid c s hsid hget]
  constructor
  · exact deliveries_to_member _ hnd hB hBA
  · apply List.filter_eq_nil_iff.mpr
    intro p hp
    rcases List.mem_map.mp hp with ⟨m, hm, rfl⟩
    have hmA : m ≠ A := by
      have h2 := (List.mem_filter.mp hm).2
      simpa using h2
    simpa using hmA

def sessW : Session :=
  { id := "s", code := defaultCode, language := "javascript",
    createdAtMs := 1, lastActiveAt := some 1 }

def stW2 : ServerState :=
  { sessions := [("s", sessW)], presence := [],
    rooms := [("s", ["A", "B"])], currentSession := [] }

/-- Witness for C1 at a concrete two-member room. -/
theorem echo_exclusion_witness :
    (("B" : String) ∈ roomMembers stW2.rooms "s")
    ∧ ((codeChange 9 stW2 "A" (some "s") (some "x")).2.filter (fun p => p.1 == "B"))
        = [("B", ServerEvent.codeUpdate "x")]
    ∧ ((codeChange 9 stW2 "A" (some "s") (some "x")).2.filter (fun p => p.1 == "A")) = [] := by
  have h := echo_exclusion 9 stW2 "A" "B" "s" "x" sessW (by decide) (by decide)
    (by decide) (by decide) (by decide) rfl
  exact ⟨by decide, h.1, h.2⟩

/-- C2: room isolation — a code-change emitted by A for its session S1
never delivers any event to a connection B whose only room is S2 ≠ S1,
whatever the code payload (valid, invalid or missing). -/
theorem room_isolation (now : Nat) (st : ServerState) (A B S1 S2 : String)
    (code? : Option String)
    (hA : A ∈ roomMembers st.rooms S1)
    (_hB : B ∈ roomMembers st.rooms S2)
    (hBonly : ∀ r, B ∈ roomMembers st.rooms r → r = S2)
    (hne : S1 ≠ S2) :
    ((codeChange now st A (some S1) code?).2.filter (fun p => p.1 == B)) = [] := by
  have hBA : B ≠ A := fun h => hne (hBonly S1 (h ▸ hA))
  have hAB : A ≠ B := fun h => hBA (Eq.symm h)
  have hBnotS1 : B ∉ roomMembers st.rooms S1 := fun h => hne (hBonly S1 h)
  unfold codeChange
  by_cases h1 : (!strTruthy (some S1) || code?.isNone) = true
  · rw [if_pos h1]
    exact filter_single_ne _ hAB
  · rw [if_neg h1]
    dsimp only
    by_cases h2 : (!(updateCode now st.sessions ((some S1).getD "") (code?.getD "")).1) = true
    · rw [if_pos h2]
      exact filter_single_ne _ hAB
    · rw [if_neg h2]
      dsimp only
      unfold socketToRoom
      exact deliveries_to_absent _
        (fun hmem => hBnotS1 (by simpa using List.mem_of_mem_filter hmem))

def sessW1 : Session :=
  { id := "s1", code := defaultCode, language := "javascript",
    createdAtMs := 1, lastActiveAt := some 1 }

def stW3 : ServerState :=
  { sessions := [("s1", sessW1)], presence := [],
    rooms := [("s1", ["A"]), ("s2", ["B"])], currentSession := [] }

/-- Witness for C2 at a concrete two-room state. -/
theorem room_isolation_witness :
    (("A" : String) ∈ roomMembers stW3.rooms "s1")
    ∧ (("B" : String) ∈ roomMembers stW3.rooms "s2")
    ∧ ((codeChange 9 stW3 "A" (some "s1") (some "x")).2.filter (fun p => p.1 == "B")) = [] := by
  have hBonly : ∀ r, ("B" : String) ∈ roomMembers stW3.rooms r → r = "s2" := by
    intro r hr
    by_cases h1 : r = "s1"
    · subst h1
      exact absurd hr (by decide)
    · by_cases h2 : r = "s2"
      · exact h2
      · exfalso
        have hn1 : ¬ (("s1" : String) = r) := fun h => h1 (Eq.symm h)
        have hn2 : ¬ (("s2" : String) = r) := fun h => h2 (Eq.symm h)
        simp [stW3, roomMembers, mapGet, hn1, hn2] at hr
  exact ⟨by decide, by decide,
    room_isolation 9 stW3 "A" "B" "s1" "s2" (some "x") (by decide) (by decide)
      hBonly (by decide)⟩

/-- C10: the code-change handler consults neither room membership nor the
sender's current room — with a registered session id and a defined code it
updates the registry and broadcasts the code-update to the whole target
room even though the sender never joined it. -/
theorem no_membership_check_on_mutation (now : Nat) (st : ServerState)
    (conn sid c : String) (s : Session)
    (hsid : sid ≠ "") (hget : mapGet st.sessions sid = some s)
    (hout : conn ∉ roomMembers st.rooms sid) :
    mapGet (codeChange now st conn (some sid) (some c)).1.sessions sid
        = some { s with code := c, lastActiveAt := some now }
    ∧ (codeChange now st conn (some sid) (some c)).2
        = (roomMembers st.rooms sid).map (fun m => (m, ServerEvent.codeUpdate c)) := by
  rw [codeChange_success now st conn sid c s hsid hget]
  refine ⟨mapGet_set_self _ _ _, ?_⟩
  show socketToRoom st.rooms sid conn _ = _
  unfold socketToRoom
  congr 1
  apply List.filter_eq_self.mpr
  intro m hm
  have hmc : m ≠ conn := fun he => hout (he ▸ hm)
  simpa using hmc

/-- Witness for C10: a non-member sender still updates the session and the
room's members all receive the broadcast. -/
theorem no_membership_check_witness :
    (("X" : String) ∉ roomMembers stW2.rooms "s")
    ∧ mapGet (codeChange 9 stW2 "X" (some "s") (some "x")).1.sessions "s"
        = some { sessW with code := "x", lastActiveAt := some 9 }
    ∧ (codeChange 9 stW2 "X" (some "s") (some "x")).2
        = [("A", ServerEvent.codeUpdate "x"), ("B", ServerEvent.codeUpdate "x")] := by
  have h := no_membership_check_on_mutation 9 stW2 "X" "s" "x" sessW
    (by decide) rfl (by decide)
  refine ⟨by decide, h.1, ?_⟩
  rw [h.2]
  rfl

theorem roomMembers_join_self_mem (rooms : Rooms) (r soc : String) :
    soc ∈ roomMembers (roomJoin rooms r soc) r := by
  unfold roomJoin
  by_cases h : soc ∈ roomMembers rooms r
  · rw [if_pos h]
    exact h
  · rw [if_neg h]
    unfold roomMembers
    rw [mapGet_set_self]
    simp

theorem roomMembers_join_other (rooms : Rooms) (r r' soc : String) (h : r' ≠ r) :
    roomMembers (roomJoin rooms r soc) r' = roomMembers rooms r' := by
  unfold roomJoin
  by_cases hm : soc ∈ roomMembers rooms r
  · rw [if_pos hm]
  · rw [if_neg hm]
    unfold roomMembers
    rw [mapGet_set_ne _ _ _ _ h]

theorem mem_roomJoin_iff (rooms : Rooms) (r r'' soc soc' : String) (h : soc' ≠ soc) :
    soc' ∈ roomMembers (roomJoin rooms r soc) r'' ↔ soc' ∈ roomMembers rooms r'' := by
  by_cases hr : r'' = r
  · subst hr
    unfold roomJoin
    by_cases hm : soc ∈ roomMembers rooms r''
    · rw [if_pos hm]
    · rw [if_neg hm]
      unfold roomMembers
      rw [mapGet_set_self]
      simp [h]
  · rw [roomMembers_join_other _ _ _ _ hr]

theorem roomMembers_leave_self (rooms : Rooms) (r soc : String) :
    roomMembers (roomLeave rooms r soc)
      r = (roomMembers rooms r).filter (fun m => m ≠ soc) := by
  unfold roomLeave
  cases hx : mapGet rooms r with
  | none =>
    unfold roomMembers
    rw [hx]
    rfl
  | some members =>
    unfold roomMembers
    rw [mapGet_set_self, hx]
    rfl

theorem roomMembers_leave_other (rooms : Rooms) (r r' soc : String) (h : r' ≠ r) :
    roomMembers (roomLeave rooms r soc) r' = roomMembers rooms r' := by
  unfold roomLeave
  cases hx : mapGet rooms r with
  | none => rfl
  | some members =>
    unfold roomMembers
    rw [mapGet_set_ne _ _ _ _ h]

theorem roomMembers_leaveAll (rooms : Rooms) (r soc : String) :
    roomMembers (leaveAllRooms rooms soc)
      r = (roomMembers rooms r).filter (fun m => m ≠ soc) := by
  induction rooms with
  | nil => rfl
  | cons p rest ih =>
    have hL : leaveAllRooms (p :: rest) soc
        = (p.1, p.2.filter (fun m => m ≠ soc)) :: leaveAllRooms rest soc := rfl
    by_cases hp : p.1 = r
    · rw [hL]
      unfold roomMembers
      rw [show mapGet ((p.1, p.2.filter (fun m => m ≠ soc)) :: leaveAllRooms rest soc) r
            = some (p.2.filter (fun m => m ≠ soc)) by simp [mapGet, hp],
          show mapGet (p :: rest) r = some p.2 by simp [mapGet, hp]]
      rfl
    · rw [hL]
      unfold roomMembers at ih ⊢
      rw [show mapGet ((p.1, p.2.filter (fun m => m ≠ soc)) :: leaveAllRooms rest soc) r
            = mapGet (leaveAllRooms rest soc) r by simp [mapGet, hp],
          show mapGet (p :: rest) r = mapGet rest r by simp [mapGet, hp]]
      exact ih

/-- Consistency of the room map with every connection's
`currentSessionId` closure variable. -/
def ConsistentRC (rooms : Rooms) (cur : List (String × String)) : Prop :=
  ∀ soc r, soc ∈ roomMembers rooms r ↔ mapGet cur soc = some r

def Consistent (st : ServerState) : Prop :=
  ConsistentRC st.rooms st.currentSession

theorem consistentRC_join_none {rooms : Rooms} {cur : List (String × String)}
    {soc : String} (sid : String) (h : ConsistentRC rooms cur)
    (hc : mapGet cur soc = none) :
    ConsistentRC (roomJoin rooms sid soc) (mapSet cur soc sid) := by
  intro soc' r
  by_cases hs : soc' = soc
  · subst hs
    rw [mapGet_set_self]
    constructor
    · intro hmem
      by_cases hr : r = sid
      · rw [hr]
      · exfalso
        rw [roomMembers_join_other _ _ _ _ hr] at hmem
        have := (h soc' r).mp hmem
        rw [hc] at this
        exact Option.noConfusion this
    · intro heq
      have hr : sid = r := Option.some.inj heq
      rw [← hr]
      exact roomMembers_join_self_mem _ _ _
  · rw [mapGet_set_ne _ _ _ _ hs, mem_roomJoin_iff _ _ _ _ _ hs]
    exact h soc' r

theorem consistentRC_join_prev {rooms : Rooms} {cur : List (String × String)}
    {soc prev : String} (sid : String) (h : ConsistentRC rooms cur)
    (hc : mapGet cur soc = some prev) :
    ConsistentRC (roomJoin (roomLeave rooms prev soc) sid soc) (mapSet cur soc sid) := by
  intro soc' r
  by_cases hs : soc' = soc
  · subst hs
    rw [mapGet_set_self]
    constructor
    · intro hmem
      by_cases hr : r = sid
      · rw [hr]
      · exfalso
        rw [roomMembers_join_other _ _ _ _ hr] at hmem
        by_cases hrp : r = prev
        · subst hrp
          rw [roomMembers_leave_self] at hmem
          have := (List.mem_filter.mp hmem).2
          simp at this
        · rw [roomMembers_leave_other _ _ _ _ hrp] at hmem
          have := (h soc' r).mp hmem
          rw [hc] at this
          exact hrp (Option.some.inj this).symm
    · intro heq
      have hr : sid = r := Option.some.inj heq
      rw [← hr]
      exact roomMembers_join_self_mem _ _ _
  · rw [mapGet_set_ne _ _ _ _ hs, mem_roomJoin_iff _ _ _ _ _ hs]
    by_cases hrp : r = prev
    · subst hrp
      rw [roomMembers_leave_self, List.mem_filter]
      constructor
      · intro hx
        exact (h soc' r).mp hx.1
      · intro hx
        exact ⟨(h soc' r).mpr hx, by simpa using hs⟩
    · rw [roomMembers_leave_other _ _ _ _ hrp]
      exact h soc' r

theorem consistentRC_disconnect {rooms : Rooms} {cur : List (String × String)}
    (soc : String) (h : ConsistentRC rooms cur) :
    ConsistentRC (leaveAllRooms rooms soc) (mapDelete cur soc) := by
  intro soc' r
  rw [roomMembers_leaveAll]
  by_cases hs : soc' = soc
  · subst hs
    rw [mapGet_delete_self, List.mem_filter]
    simp
  · rw [mapGet_delete_ne _ _ _ hs, List.mem_filter]
    constructor
    · intro hx
      exact (h soc' r).mp hx.1
    · intro hx
      exact ⟨(h soc' r).mpr hx, by simpa using hs⟩

/-- The handlers that never touch rooms or currentSession. -/
theorem codeChange_fields (now : Nat) (st : ServerState) (soc : String)
    (sid? c? : Option String) :
    (codeChange now st soc sid? c?).1.presence = st.presence
    ∧ (codeChange now st soc sid? c?).1.rooms = st.rooms
    ∧ (codeChange now st soc sid? c?).1.currentSession = st.currentSession := by
  unfold codeChange
  by_cases h1 : (!strTruthy sid? || c?.isNone) = true
  · rw [if_pos h1]
    exact ⟨rfl, rfl, rfl⟩
  · rw [if_neg h1]
    dsimp only
    by_cases h2 : (!(updateCode now st.sessions (sid?.getD "") (c?.getD "")).1) = true
    · rw [if_pos h2]
      exact ⟨rfl, rfl, rfl⟩
    · rw [if_neg h2]
      exact ⟨rfl, rfl, rfl⟩

theorem languageChange_fields (now : Nat) (st : ServerState) (soc : String)
    (sid? l? : Option String) :
    (languageChange now st soc sid? l?).1.presence = st.presence
    ∧ (languageChange now st soc sid? l?).1.rooms = st.rooms
    ∧ (languageChange now st soc sid? l?).1.currentSession = st.currentSession := by
  unfold languageChange
  by_cases h1 : (!strTruthy sid? || !strTruthy l?) = true
  · rw [if_pos h1]
    exact ⟨rfl, rfl, rfl⟩
  · rw [if_neg h1]
    dsimp only
    by_cases h2 : (!(validLanguages.contains (l?.getD ""))) = true
    · rw [if_pos h2]
      exact ⟨rfl, rfl, rfl⟩
    · rw [if_neg h2]
      by_cases h3 : (!(updateLanguage now st.sessions (sid?.getD "") (l?.getD "")).1) = true
      · rw [if_pos h3]
        exact ⟨rfl, rfl, rfl⟩
      · rw [if_neg h3]
        exact ⟨rfl, rfl, rfl⟩

theorem activityChange_fields (st : ServerState) (soc : String)
    (sid? : Option String) (a? : Option Bool) :
    (activityChange st soc sid? a?).1.rooms = st.rooms
    ∧ (activityChange st soc sid? a?).1.currentSession = st.currentSession := by
  unfold activityChange
  by_cases h1 : (!strTruthy sid? || a?.isNone) = true
  · rw [if_pos h1]
    exact ⟨rfl, rfl⟩
  · rw [if_neg h1]
    dsimp only
    cases hp : mapGet st.presence (sid?.getD "") with
    | none => exact ⟨rfl, rfl⟩
    | some users =>
      dsimp only
      cases hu : mapGet users soc with
      | none => exact ⟨rfl, rfl⟩
      | some entry => exact ⟨rfl, rfl⟩

theorem consistent_joinSession (now : Nat) (st : ServerState) (soc : String)
    (sid? : Option String) (ih : Consistent st) :
    Consistent (joinSession now st soc sid?).1 := by
  unfold joinSession
  by_cases h1 : (!strTruthy sid?) = true
  · rw [if_pos h1]
    exact ih
  · rw [if_neg h1]
    dsimp only
    cases hg : getSession st.sessions (sid?.getD "") with
    | none => exact ih
    | some session =>
      dsimp only
      cases hc : mapGet st.currentSession soc with
      | none => exact consistentRC_join_none (sid?.getD "") ih hc
      | some prev =>
        dsimp only
        cases hp : mapGet st.presence prev with
        | none => exact consistentRC_join_prev (sid?.getD "") ih hc
        | some prevUsers =>
          dsimp only
          by_cases he : (mapDelete prevUsers soc).isEmpty = true
          · rw [if_pos he]
            exact consistentRC_join_prev (sid?.getD "") ih hc
          · rw [if_neg he]
            exact consistentRC_join_prev (sid?.getD "") ih hc

theorem consistent_disconnect (st : ServerState) (soc : String) (ih : Consistent st) :
    Consistent (disconnectSocket st soc).1 := by
  unfold disconnectSocket
  cases hc : mapGet st.currentSession soc with
  | none => exact consistentRC_disconnect soc ih
  | some cur =>
    dsimp only
    cases hp : mapGet st.presence cur with
    | none => exact consistentRC_disconnect soc ih
    | some users =>
      dsimp only
      by_cases he : (mapDelete users soc).isEmpty = true
      · rw [if_pos he]
        exact consistentRC_disconnect soc ih
      · rw [if_neg he]
        exact consistentRC_disconnect soc ih

/-- Every reachable server state keeps the room maps consistent with the
per-connection `currentSessionId` variables. -/
theorem reachable_consistent {st : ServerState} (h : Reachable st) : Consistent st := by
  induction h with
  | init =>
    intro soc r
    simp [initialState, roomMembers, mapGet]
  | create now sid hst ih => exact ih
  | join now soc sid? hst ih => exact consistent_joinSession now _ soc sid? ih
  | code now soc sid? c? hst ih =>
    unfold Consistent ConsistentRC at ih ⊢
    rw [(codeChange_fields now _ soc sid? c?).2.1, (codeChange_fields now _ soc sid? c?).2.2]
    exact ih
  | lang now soc sid? l? hst ih =>
    unfold Consistent ConsistentRC at ih ⊢
    rw [(languageChange_fields now _ soc sid? l?).2.1,
      (languageChange_fields now _ soc sid? l?).2.2]
    exact ih
  | activity soc sid? a? hst ih =>
    unfold Consistent ConsistentRC at ih ⊢
    rw [(activityChange_fields _ soc sid? a?).1, (activityChange_fields _ soc sid? a?).2]
    exact ih
  | disconnect soc hst ih => exact consistent_disconnect _ soc ih
  | sweep now hst ih => exact ih

/-- No presence map is retained empty. -/
def NoEmptyPresence (st : ServerState) : Prop :=
  ∀ p ∈ st.presence, p.2 ≠ ([] : PresenceMap)

theorem noEmpty_joinSession (now : Nat) (st : ServerState) (soc : String)
    (sid? : Option String) (ih : NoEmptyPresence st) :
    NoEmptyPresence (joinSession now st soc sid?).1 := by
  unfold joinSession
  by_cases h1 : (!strTruthy sid?) = true
  · rw [if_pos h1]
    exact ih
  · rw [if_neg h1]
    dsimp only
    cases hg : getSession st.sessions (sid?.getD "") with
    | none => exact ih
    | some session =>
      dsimp only
      have step : ∀ pres1 : PresenceState, (∀ p ∈ pres1, p.2 ≠ ([] : PresenceMap)) →
          ∀ p ∈ mapSet pres1 (sid?.getD "")
              (mapSet ((mapGet pres1 (sid?.getD "")).getD []) soc
                { isActive := true, joinedAt := now }),
            p.2 ≠ ([] : PresenceMap) := by
        intro pres1 hpres p hp
        rcases mem_mapSet hp with rfl | hmem
        · exact mapSet_ne_nil _ _ _
        · exact hpres p hmem
      cases hc : mapGet st.currentSession soc with
      | none => exact step st.presence ih
      | some prev =>
        dsimp only
        cases hp : mapGet st.presence prev with
        | none => exact step st.presence ih
        | some prevUsers =>
          dsimp only
          by_cases he : (mapDelete prevUsers soc).isEmpty = true
          · rw [if_pos he]
            exact step (mapDelete st.presence prev)
              (fun p hp2 => ih p (mem_mapDelete hp2))
          · rw [if_neg he]
            apply step (mapSet st.presence prev (mapDelete prevUsers soc))
            intro p hp2
            rcases mem_mapSet hp2 with rfl | hmem
            · intro hnil
              apply he
              have hn2 : mapDelete prevUsers soc = [] := hnil
              rw [hn2]
              rfl
            · exact ih p hmem

theorem noEmpty_activityChange (st : ServerState) (soc : String)
    (sid? : Option String) (a? : Option Bool) (ih : NoEmptyPresence st) :
    NoEmptyPresence (activityChange st soc sid? a?).1 := by
  unfold activityChange
  by_cases h1 : (!strTruthy sid? || a?.isNone) = true
  · rw [if_pos h1]
    exact ih
  · rw [if_neg h1]
    dsimp only
    cases hp : mapGet st.presence (sid?.getD "") with
    | none => exact ih
    | some users =>
      dsimp only
      cases hu : mapGet users soc with
      | none => exact ih
      | some entry =>
        intro p hp2
        rcases mem_mapSet hp2 with rfl | hmem
        · exact mapSet_ne_nil _ _ _
        · exact ih p hmem

theorem noEmpty_disconnect (st : ServerState) (soc : String) (ih : NoEmptyPresence st) :
    NoEmptyPresence (disconnectSocket st soc).1 := by
  unfold disconnectSocket
  cases hc : mapGet st.currentSession soc with
  | none => exact ih
  | some cur =>
    dsimp only
    cases hp : mapGet st.presence cur with
    | none => exact ih
    | some users =>
      dsimp only
      by_cases he : (mapDelete users soc).isEmpty = true
      · rw [if_pos he]
        intro p hp2
        exact ih p (mem_mapDelete hp2)
      · rw [if_neg he]
        intro p hp2
        rcases mem_mapSet hp2 with rfl | hmem
        · intro hnil
          apply he
          have hn2 : mapDelete users soc = [] := hnil
          rw [hn2]
          rfl
        · exact ih p hmem

/-- Every reachable server state retains only non-empty presence maps. -/
theorem reachable_noEmptyPresence {st : ServerState} (h : Reachable st) :
    NoEmptyPresence st := by
  induction h with
  | init =>
    intro p hp
    simp [initialState] at hp
  | create now sid hst ih => exact ih
  | join now soc sid? hst ih => exact noEmpty_joinSession now _ soc sid? ih
  | code now soc sid? c? hst ih =>
    intro p hp
    rw [(codeChange_fields now _ soc sid? c?).1] at hp
    exact ih p hp
  | lang now soc sid? l? hst ih =>
    intro p hp
    rw [(languageChange_fields now _ soc sid? l?).1] at hp
    exact ih p hp
  | activity soc sid? a? hst ih => exact noEmpty_activityChange _ soc sid? a? ih
  | disconnect soc hst ih => exact noEmpty_disconnect _ soc ih
  | sweep now hst ih => exact ih

/-- C5: after any reachable sequence of operations, every presence snapshot
that carries an activeCount satisfies activeCount ≤ userCount, and no
session's presence map is retained empty — the last member leaving removes
the map entirely. -/
theorem presence_accounting (st : ServerState) (h : Reachable st) (sid : String) :
    (∀ a, (getSessionPresence st.presence sid).activeCount = some a →
        a ≤ (getSessionPresence st.presence sid).userCount)
    ∧ mapGet st.presence sid ≠ some ([] : PresenceMap) := by
  constructor
  · intro a ha
    unfold getSessionPresence at ha ⊢
    cases hx : mapGet st.presence sid with
    | none =>
      rw [hx] at ha
      dsimp only at ha
      exact Option.noConfusion ha
    | some users =>
      rw [hx] at ha
      dsimp only at ha ⊢
      rw [← Option.some.inj ha]
      calc ((users.map fun p =>
              ({ id := p.1.take 8, isActive := p.2.isActive,
                 joinedAt := p.2.joinedAt } : UserInfo)).filter
            (fun u => u.isActive)).length
          ≤ (users.map fun p =>
              ({ id := p.1.take 8, isActive := p.2.isActive,
                 joinedAt := p.2.joinedAt } : UserInfo)).length :=
            List.length_filter_le _ _
        _ = users.length := List.length_map _ _
  · intro hx
    exact reachable_noEmptyPresence h (sid, ([] : PresenceMap)) (mapGet_mem hx) rfl

def stR1 : ServerState :=
  { initialState with sessions := (createSession 100 "alpha" initialState.sessions).2 }

def stR2 : ServerState := (joinSession 200 stR1 "sockA" (some "alpha")).1

/-- Witness for C5 at a concrete reachable state. -/
theorem presence_accounting_witness :
    (∀ a, (getSessionPresence stR2.presence "alpha").activeCount = some a →
        a ≤ (getSessionPresence stR2.presence "alpha").userCount)
    ∧ mapGet stR2.presence "alpha" ≠ some ([] : PresenceMap) :=
  presence_accounting stR2
    (Reachable.join 200 "sockA" (some "alpha")
      (Reachable.create 100 "alpha" Reachable.init))
    "alpha"

/-- Whether a connection has a presence entry in a session. -/
def presenceHas (presence : PresenceState) (sid conn : String) : Bool :=
  match mapGet presence sid with
  | none => false
  | some users => (mapGet users conn).isSome

theorem getSessionPresence_congr (p1 p2 : PresenceState) (sid : String)
    (h : mapGet p1 sid = mapGet p2 sid) :
    getSessionPresence p1 sid = getSessionPresence p2 sid := by
  unfold getSessionPresence
  rw [h]

theorem if_bang_true {α : Type} (a b : α) : (if (!true) = true then a else b) = b := rfl

/-- C4: in every reachable state a connection belongs to at most one room;
and a successful join of a different session by a connection currently in
room R' performs the full leave of R' — room membership removed, presence
entry removed, and, when R' still has members, the updated R' presence
snapshot is re-broadcast to R' before the joiner's session-state reply —
before the new membership and presence entry are installed. -/
theorem one_room_invariant :
    (∀ st : ServerState, Reachable st → ∀ soc r1 r2,
        soc ∈ roomMembers st.rooms r1 → soc ∈ roomMembers st.rooms r2 → r1 = r2)
    ∧ (∀ (now : Nat) (st : ServerState) (conn prev sid : String)
        (sess : Session) (prevUsers : PresenceMap),
        Reachable st →
        conn ∈ roomMembers st.rooms prev →
        mapGet st.presence prev = some prevUsers →
        prev ≠ sid → sid ≠ "" →
        mapGet st.sessions sid = some sess →
        conn ∉ roomMembers (joinSession now st conn (some sid)).1.rooms prev
        ∧ presenceHas (joinSession now st conn (some sid)).1.presence prev conn = false
        ∧ conn ∈ roomMembers (joinSession now st conn (some sid)).1.rooms sid
        ∧ mapGet ((mapGet (joinSession now st conn (some sid)).1.presence sid).getD []) conn
            = some { isActive := true, joinedAt := now }
        ∧ mapGet (joinSession now st conn (some sid)).1.currentSession conn = some sid
        ∧ (mapDelete prevUsers conn ≠ [] →
            ∃ post, (joinSession now st conn (some sid)).2
              = ((roomMembers st.rooms prev).filter (fun m => m ≠ conn)).map
                  (fun m => (m, ServerEvent.presenceUpdate
                    (getSessionPresence (joinSession now st conn (some sid)).1.presence prev)))
                ++ (conn, ServerEvent.sessionState sess.code sess.language) :: post)) := by
  constructor
  · intro st hst soc r1 r2 h1 h2
    have hc := reachable_consistent hst
    have e1 := (hc soc r1).mp h1
    have e2 := (hc soc r2).mp h2
    rw [e1] at e2
    exact Option.some.inj e2
  · intro now st conn prev sid sess prevUsers hst hmem hp hneq hsid hget
    have hcons := reachable_consistent hst
    have hcur : mapGet st.currentSession conn = some prev := (hcons conn prev).mp hmem
    have ht : strTruthy (some sid) = true := strTruthy_some_of_ne hsid
    have hgs : getSession st.sessions sid = some sess := hget
    by_cases he : (mapDelete prevUsers conn).isEmpty = true
    · have heq : joinSession now st conn (some sid)
          = ({ st with
                rooms := roomJoin (roomLeave st.rooms prev conn) sid conn,
                presence := mapSet (mapDelete st.presence prev) sid
                  (mapSet ((mapGet (mapDelete st.presence prev) sid).getD []) conn
                    { isActive := true, joinedAt := now }),
                currentSession := mapSet st.currentSession conn sid },
              [(conn, ServerEvent.sessionState sess.code sess.language)]
                ++ broadcastPresence
                    (roomJoin (roomLeave st.rooms prev conn) sid conn)
                    (mapSet (mapDelete st.presence prev) sid
                      (mapSet ((mapGet (mapDelete st.presence prev) sid).getD []) conn
                        { isActive := true, joinedAt := now }))
                    sid) := by
        unfold joinSession
        rw [ht, if_bang_true]
        simp only [Option.getD_some]
        rw [hgs]
        dsimp only
        rw [hcur]
        dsimp only
        rw [hp]
        dsimp only
        rw [if_pos he]
        rfl
      refine ⟨?_, ?_, ?_, ?_, ?_, ?_⟩
      · rw [heq]
        rw [show ({ st with
              rooms := roomJoin (roomLeave st.rooms prev conn) sid conn,
              presence := mapSet (mapDelete st.presence prev) sid
                (mapSet ((mapGet (mapDelete st.presence prev) sid).getD []) conn
                  { isActive := true, joinedAt := now }),
              currentSession := mapSet st.currentSession conn sid } : ServerState).rooms
            = roomJoin (roomLeave st.rooms prev conn) sid conn from rfl,
          roomMembers_join_other _ _ _ _ hneq, roomMembers_leave_self]
        intro hmem2
        have h2 := (List.mem_filter.mp hmem2).2
        simp at h2
      · rw [heq]
        unfold presenceHas
        dsimp only
        rw [mapGet_set_ne _ _ _ _ hneq, mapGet_delete_self]
      · rw [heq]
        exact roomMembers_join_self_mem _ _ _
      · rw [heq]
        dsimp only
        rw [mapGet_set_self]
        exact mapGet_set_self _ _ _
      · rw [heq]
        dsimp only
        exact mapGet_set_self _ _ _
      · intro hne
        exact absurd (List.isEmpty_iff.mp he) hne
    · have heq : joinSession now st conn (some sid)
          = ({ st with
                rooms := roomJoin (roomLeave st.rooms prev conn) sid conn,
                presence := mapSet (mapSet st.presence prev (mapDelete prevUsers conn)) sid
                  (mapSet ((mapGet (mapSet st.presence prev (mapDelete prevUsers conn)) sid).getD [])
                    conn { isActive := true, joinedAt := now }),
                currentSession := mapSet st.currentSession conn sid },
              broadcastPresence (roomLeave st.rooms prev conn)
                  (mapSet st.presence prev (mapDelete prevUsers conn)) prev
                ++ [(conn, ServerEvent.sessionState sess.code sess.language)]
                ++ broadcastPresence
                    (roomJoin (roomLeave st.rooms prev conn) sid conn)
                    (mapSet (mapSet st.presence prev (mapDelete prevUsers conn)) sid
                      (mapSet ((mapGet (mapSet st.presence prev (mapDelete prevUsers conn)) sid).getD [])
                        conn { isActive := true, joinedAt := now }))
                    sid) := by
        unfold joinSession
        rw [ht, if_bang_true]
        simp only [Option.getD_some]
        rw [hgs]
        dsimp only
        rw [hcur]
        dsimp only
        rw [hp]
        dsimp only
        rw [if_neg he]
      refine ⟨?_, ?_, ?_, ?_, ?_, ?_⟩
      · rw [heq]
        rw [show ({ st with
              rooms := roomJoin (roomLeave st.rooms prev conn) sid conn,
              presence := mapSet (mapSet st.presence prev (mapDelete prevUsers conn)) sid
                (mapSet ((mapGet (mapSet st.presence prev (mapDelete prevUsers conn)) sid).getD [])
                  conn { isActive := true, joinedAt := now }),
              currentSession := mapSet st.currentSession conn sid } : ServerState).rooms
            = roomJoin (roomLeave st.rooms prev conn) sid conn from rfl,
          roomMembers_join_other _ _ _ _ hneq, roomMembers_leave_self]
        intro hmem2
        have h2 := (List.mem_filter.mp hmem2).2
        simp at h2
      · rw [heq]
        unfold presenceHas
        dsimp only
        rw [mapGet_set_ne _ _ _ _ hneq, mapGet_set_self]
        dsimp only
        rw [mapGet_delete_self]
        rfl
      · rw [heq]
        exact roomMembers_join_self_mem _ _ _
      · rw [heq]
        dsimp only
        rw [mapGet_set_self]
        exact mapGet_set_self _ _ _
      · rw [heq]
        dsimp only
        exact mapGet_set_self _ _ _
      · intro hne
        rw [heq]
        dsimp only
        refine ⟨broadcastPresence
            (roomJoin (roomLeave st.rooms prev conn) sid conn)
            (mapSet (mapSet st.presence prev (mapDelete prevUsers conn)) sid
              (mapSet ((mapGet (mapSet st.presence prev (mapDelete prevUsers conn)) sid).getD [])
                conn { isActive := true, joinedAt := now }))
            sid, ?_⟩
        have hsnap : getSessionPresence (mapSet st.presence prev (mapDelete prevUsers conn)) prev
            = getSessionPresence
                (mapSet (mapSet st.presence prev (mapDelete prevUsers conn)) sid
                  (mapSet ((mapGet (mapSet st.presence prev (mapDelete prevUsers conn)) sid).getD [])
                    conn { isActive := true, joinedAt := now })) prev :=
          getSessionPresence_congr _ _ _ (mapGet_set_ne _ _ _ _ hneq).symm
        rw [show broadcastPresence (roomLeave st.rooms prev conn)
              (mapSet st.presence prev (mapDelete prevUsers conn)) prev
            = (roomMembers (roomLeave st.rooms prev conn) prev).map
                (fun m => (m, ServerEvent.presenceUpdate
                  (getSessionPresence (mapSet st.presence prev (mapDelete prevUsers conn)) prev)))
            from rfl,
          roomMembers_leave_self, hsnap, List.append_assoc]
        rfl

def stCreated2 : ServerState :=
  { stR1 with sessions := (createSession 150 "beta" stR1.sessions).2 }

def stR3 : ServerState := (joinSession 300 stCreated2 "sockA" (some "alpha")).1

def betaSess : Session :=
  { id := "beta", code := defaultCode, language := "javascript",
    createdAtMs := 150, lastActiveAt := some 150 }

/-- Witness for C4: a connection in room "alpha" joining "beta" leaves
"alpha" entirely and lands in "beta" alone. -/
theorem one_room_invariant_witness :
    (("sockA" : String) ∈ roomMembers stR3.rooms "alpha")
    ∧ ("sockA" ∉ roomMembers (joinSession 500 stR3 "sockA" (some "beta")).1.rooms "alpha")
    ∧ presenceHas (joinSession 500 stR3 "sockA" (some "beta")).1.presence "alpha" "sockA" = false
    ∧ (("sockA" : String) ∈ roomMembers (joinSession 500 stR3 "sockA" (some "beta")).1.rooms "beta")
    ∧ ("alpha" = "alpha") := by
  have hr3 : Reachable stR3 :=
    Reachable.join 300 "sockA" (some "alpha")
      (Reachable.create 150 "beta" (Reachable.create 100 "alpha" Reachable.init))
  have h2 := one_room_invariant.2 500 stR3 "sockA" "alpha" "beta" betaSess
    [("sockA", { isActive := true, joinedAt := 300 })] hr3 (by decide) rfl
    (by decide) (by decide) rfl
  have h1 := one_room_invariant.1 stR3 hr3 "sockA" "alpha" "alpha" (by decide) (by decide)
  exact ⟨by decide, h2.1, h2.2.1, h2.2.2.1, h1⟩

/-- C8 counterexample: the empty string is a language value outside
{javascript, python, other}, yet the handler answers "Invalid language
change data" — zero "Invalid language selection" errors are emitted. -/
theorem language_validation_empty_counterexample :
    validLanguages.contains "" = false
    ∧ sessionExists (createSession 50 "sess1" []).2 "sess1" = true
    ∧ (languageChange 60 { initialState with sessions := (createSession 50 "sess1" []).2 }
          "connA" (some "sess1") (some "")).2
        = [("connA", ServerEvent.error "Invalid language change data")]
    ∧ ((languageChange 60 { initialState with sessions := (createSession 50 "sess1" []).2 }
          "connA" (some "sess1") (some "")).2.filter
        (fun p => p.2 == ServerEvent.error "Invalid language selection")).length = 0 :=
  ⟨rfl, rfl, rfl, rfl⟩

end CodeCollab
